import Mathlib

/-!
Verification of `clut2dtstyle.py`, a script that converts Hald CLUT images to
darktable style files.  The definitions below are a shallow embedding of the
script's pure logic: exceptions become an `Except` value, NumPy arrays become
lists of lists, and the exact real cube root stands in for `np.cbrt` (the
script's round-trip check `int(np.cbrt(w))**3 == w` is exactly the statement
that `w` is a perfect cube under exact arithmetic).
-/

namespace Clut2dtstyle

/-- The exceptions that can escape the pipeline.  `printError` models the
script's sole domain-error class `PrintError` (carrying its message);
the other constructors model built-in Python exceptions that the script can
raise but never catches. -/
inductive PyExc where
  | printError (msg : String)
  | keyboardInterrupt
  | attributeError
  | fileNotFoundError
  | zeroDivisionError
deriving DecidableEq, Repr

/-- Models the `except` clauses of `main` (clut2dtstyle.py lines 68-74):
only `PrintError` (exit 1) and `KeyboardInterrupt` (exit 130) are handled;
every other exception escapes as an unhandled traceback. -/
def handledByMain : PyExc → Bool
  | .printError _ => true
  | .keyboardInterrupt => true
  | _ => false

/-- Integer part of the cube root: the largest `n` with `n ^ 3 ≤ w`.
This is `int(np.cbrt(w))` under exact real arithmetic. -/
def natCbrt (w : Nat) : Nat :=
  Nat.findGreatest (fun n => n ^ 3 ≤ w) w

/-- Embedding of `get_dimensions` (lines 112-130) after the external
`identify` call has produced integer `width` and `height`.  The guard is
`width != height or int(np.cbrt(width))**3 != width`. -/
def get_dimensions (name : String) (width height : Nat) : Except PyExc (Nat × Nat) :=
  if width ≠ height ∨ (natCbrt width) ^ 3 ≠ width then
    .error (.printError (name ++ " has wrong dimensions to be a valid Hald CLUT"))
  else
    .ok (width, height)

lemma natCbrt_cube (n : Nat) : natCbrt (n ^ 3) = n := by
  unfold natCbrt
  rcases Nat.eq_zero_or_pos n with hn | hn
  · subst hn
    simp [Nat.findGreatest_eq_zero_iff]
  · have hle : n ≤ n ^ 3 := Nat.le_self_pow (by norm_num) n
    have h1 : n ≤ Nat.findGreatest (fun m => m ^ 3 ≤ n ^ 3) (n ^ 3) :=
      Nat.le_findGreatest hle le_rfl
    have h2 : (Nat.findGreatest (fun m => m ^ 3 ≤ n ^ 3) (n ^ 3)) ^ 3 ≤ n ^ 3 :=
      Nat.findGreatest_spec (P := fun m => m ^ 3 ≤ n ^ 3) hle le_rfl
    have h3 : Nat.findGreatest (fun m => m ^ 3 ≤ n ^ 3) (n ^ 3) ≤ n := by
      by_contra hcon
      push_neg at hcon
      exact absurd h2 (not_le.mpr (Nat.pow_lt_pow_left hcon (by norm_num)))
    omega

/-- C1: For a square image whose width is a perfect cube `n ^ 3` with
`n ≥ 1`, `get_dimensions` returns `(width, height)`; if width ≠ height,
or the image is square with a non-cube width, it raises the
`PrintError` whose message reports invalid Hald CLUT dimensions. -/
theorem get_dimensions_correct (name : String) (w h : Nat) :
    ((∃ n, 1 ≤ n ∧ w = n ^ 3) → w = h → get_dimensions name w h = .ok (w, h)) ∧
    (w ≠ h →
      get_dimensions name w h =
        .error (.printError (name ++ " has wrong dimensions to be a valid Hald CLUT"))) ∧
    (w = h → (¬ ∃ n, w = n ^ 3) →
      get_dimensions name w h =
        .error (.printError (name ++ " has wrong dimensions to be a valid Hald CLUT"))) := by
  refine ⟨?_, ?_, ?_⟩
  · rintro ⟨n, -, rfl⟩ rfl
    simp [get_dimensions, natCbrt_cube]
  · intro hne
    simp [get_dimensions, hne]
  · rintro rfl hnc
    have : (natCbrt w) ^ 3 ≠ w := fun hc => hnc ⟨natCbrt w, hc.symm⟩
    simp [get_dimensions, this]

/-- Witness for C1: a 2×2 image is rejected, an 8×8 image (8 = 2³) is
accepted, and a 4×4 square image (4 not a cube) is rejected. -/
theorem get_dimensions_correct_witness :
    get_dimensions "clut.png" 8 8 = .ok (8, 8) ∧
    get_dimensions "clut.png" 8 4 =
      .error (.printError "clut.png has wrong dimensions to be a valid Hald CLUT") ∧
    get_dimensions "clut.png" 4 4 =
      .error (.printError "clut.png has wrong dimensions to be a valid Hald CLUT") := by
  refine ⟨?_, ?_, ?_⟩
  · exact (get_dimensions_correct "clut.png" 8 8).1 ⟨2, by norm_num⟩ rfl
  · exact (get_dimensions_correct "clut.png" 8 4).2.1 (by decide)
  · refine (get_dimensions_correct "clut.png" 4 4).2.2 rfl ?_
    rintro ⟨n, hn⟩
    have hle : n ≤ 4 := by
      by_contra hgt
      push_neg at hgt
      have : 5 ^ 3 ≤ n ^ 3 := Nat.pow_le_pow_left (by omega) 3
      omega
    interval_cases n <;> simp_all

/-- NumPy strided slice `l[::k]` for stride `k ≥ 1`: indices 0, k, 2k, ... -/
def everyNth (k : Nat) : List α → List α
  | [] => []
  | x :: xs => x :: everyNth k (xs.drop (k - 1))
termination_by l => l.length
decreasing_by simp [List.length_drop]; omega

/-- NumPy 2-D strided slice `g[::k, ::k]`. -/
def subsample (k : Nat) (g : List (List α)) : List (List α) :=
  (everyNth k g).map (everyNth k)

/-- Cell `(i, j)` of a 2-D grid, `none` when out of range. -/
def cell (g : List (List α)) (i j : Nat) : Option α :=
  (g[i]?).bind (fun row => row[j]?)

/-- Embedding of the sampling step of `clut_to_dtstyle` (lines 165-170):
`interval = int(size / number)` (Python true division truncated toward
zero, which is `Int.tdiv` under exact arithmetic, and a `ZeroDivisionError`
when `number = 0`), then `A, B = hald[::interval, ::interval],
array[::interval, ::interval]` when `interval > 1`, else the grids
unmodified. -/
def interval (size : Nat) (number : Int) : Int :=
  Int.tdiv size number

def sampleGrids (size : Nat) (hald arr : List (List α)) (number : Int) :
    Except PyExc (List (List α) × List (List α)) :=
  if number = 0 then
    .error .zeroDivisionError
  else if interval size number > 1 then
    .ok (subsample (interval size number).toNat hald,
         subsample (interval size number).toNat arr)
  else
    .ok (hald, arr)

lemma everyNth_getElem? (k : Nat) (hk : 1 ≤ k) (l : List α) (i : Nat) :
    (everyNth k l)[i]? = l[i * k]? := by
  induction l using everyNth.induct k generalizing i with
  | case1 => simp [everyNth]
  | case2 x xs ih =>
    rw [everyNth]
    cases i with
    | zero => simp
    | succ m =>
      have h1 : (x :: everyNth k (xs.drop (k - 1)))[m + 1]? =
          (everyNth k (xs.drop (k - 1)))[m]? := by simp
      rw [h1, ih, List.getElem?_drop]
      have h2 : (m + 1) * k = (k - 1 + m * k) + 1 := by
        rw [Nat.succ_mul]
        omega
      rw [h2]
      simp

lemma everyNth_length (k : Nat) (hk : 1 ≤ k) (l : List α) :
    (everyNth k l).length = (l.length + k - 1) / k := by
  induction l using everyNth.induct k with
  | case1 =>
    rw [everyNth]
    simp [Nat.div_eq_of_lt (by omega : k - 1 < k)]
  | case2 x xs ih =>
    rw [everyNth]
    simp only [List.length_cons, ih, List.length_drop]
    rcases le_or_lt (k - 1) xs.length with hle | hlt
    · have h1 : xs.length - (k - 1) + k - 1 = (xs.length - (k - 1)) + (k - 1) := by omega
      have h2 : xs.length + 1 + k - 1 = (xs.length - (k - 1) + (k - 1)) + k := by omega
      rw [h1, h2, Nat.add_div_right _ (by omega : 0 < k)]
    · have h1 : xs.length - (k - 1) = 0 := by omega
      have h2 : xs.length + 1 + k - 1 = xs.length + k := by omega
      rw [h1, h2, Nat.add_div_right _ (by omega : 0 < k),
        Nat.div_eq_of_lt (by omega : 0 + k - 1 < k),
        Nat.div_eq_of_lt (by omega : xs.length < k)]

lemma everyNth_mem (k : Nat) (l : List α) : ∀ x ∈ everyNth k l, x ∈ l := by
  induction l using everyNth.induct k with
  | case1 => simp [everyNth]
  | case2 x xs ih =>
    intro y hy
    rw [everyNth] at hy
    rcases List.mem_cons.mp hy with rfl | hy
    · exact List.mem_cons_self _ _
    · exact List.mem_cons_of_mem x (List.mem_of_mem_drop (ih y hy))

lemma subsample_cell (k : Nat) (hk : 1 ≤ k) (g : List (List α)) (i j : Nat) :
    cell (subsample k g) i j = cell g (i * k) (j * k) := by
  unfold cell subsample
  rw [List.getElem?_map, everyNth_getElem? k hk]
  cases g[i * k]? with
  | none => rfl
  | some row => simp [everyNth_getElem? k hk row j]

lemma subsample_length (k : Nat) (hk : 1 ≤ k) (g : List (List α)) :
    (subsample k g).length = (g.length + k - 1) / k := by
  unfold subsample
  rw [List.length_map, everyNth_length k hk]

lemma subsample_row_length (k : Nat) (hk : 1 ≤ k) (size : Nat) (g : List (List α))
    (hrow : ∀ row ∈ g, row.length = size) :
    ∀ row ∈ subsample k g, row.length = (size + k - 1) / k := by
  intro row hmem
  unfold subsample at hmem
  rcases List.mem_map.mp hmem with ⟨r, hr, rfl⟩
  rw [everyNth_length k hk, hrow r (everyNth_mem k g r hr)]

lemma interval_ofNat (size num : Nat) :
    interval size (num : Int) = ((size / num : Nat) : Int) := rfl

lemma interval_negSucc (size n : Nat) :
    interval size (Int.negSucc n) = -((size / (n + 1) : Nat) : Int) := rfl

/-- C2 counterexample: the claim quantifies over every pair of
`(size, size, 3)` grids and asserts that `point_count ≥ size` never
raises a division error; but at `size = 0` with `point_count = 0`
(which satisfies `point_count ≥ size`) the code computes
`int(0 / 0)` and raises `ZeroDivisionError`. -/
theorem sampleGrids_full_res_counterexample :
    (0 : Int) ≥ ((0 : Nat) : Int) ∧
    sampleGrids 0 ([] : List (List Int)) [] 0 = .error .zeroDivisionError := by
  exact ⟨le_refl 0, rfl⟩

/-- C2 (amended): for nonzero `point_count ≥ size` the sampler returns
both grids unmodified with no error; and when the stride
`floor(size / point_count)` exceeds 1, both grids are subsampled by that
identical stride starting at index 0, each sampled grid has
`ceil(size / stride)` rows and columns (so both have identical shape),
and cell `(i, j)` of each sampled grid is cell `(i·stride, j·stride)`
of the corresponding original. -/
theorem sampleGrids_stride_consistent (size : Nat) (A B : List (List α)) (number : Int)
    (hA : A.length = size) (hArow : ∀ row ∈ A, row.length = size)
    (hB : B.length = size) (hBrow : ∀ row ∈ B, row.length = size) :
    (number ≠ 0 → ((size : Int) ≤ number) → sampleGrids size A B number = .ok (A, B)) ∧
    (∀ num : Nat, number = (num : Int) → 1 ≤ num → ∀ k : Nat, size / num = k → 1 < k →
      sampleGrids size A B number = .ok (subsample k A, subsample k B) ∧
      (subsample k A).length = (size + k - 1) / k ∧
      (subsample k B).length = (size + k - 1) / k ∧
      (∀ row ∈ subsample k A, row.length = (size + k - 1) / k) ∧
      (∀ row ∈ subsample k B, row.length = (size + k - 1) / k) ∧
      (∀ i j, cell (subsample k A) i j = cell A (i * k) (j * k)) ∧
      (∀ i j, cell (subsample k B) i j = cell B (i * k) (j * k))) := by
  constructor
  · intro hne0 hge
    have hnn : 0 ≤ number := le_trans (by exact_mod_cast Nat.zero_le size) hge
    obtain ⟨num, rfl⟩ : ∃ num : Nat, number = (num : Int) :=
      ⟨number.toNat, (Int.toNat_of_nonneg hnn).symm⟩
    have hsle : size ≤ num := by exact_mod_cast hge
    have hnum1 : 1 ≤ num := by
      rcases Nat.eq_zero_or_pos num with h | h
      · exact absurd (by exact_mod_cast h) hne0
      · exact h
    have hdiv : size / num ≤ 1 := by
      calc size / num ≤ num / num := Nat.div_le_div_right hsle
        _ ≤ 1 := le_of_eq (Nat.div_self (by omega))
    unfold sampleGrids
    rw [if_neg hne0, if_neg]
    rw [interval_ofNat]
    exact_mod_cast not_lt.mpr hdiv
  · intro num hnum hnum1 k hk hk1
    subst hnum
    have hne0 : ((num : Int)) ≠ 0 := by exact_mod_cast Nat.pos_iff_ne_zero.mp hnum1
    have hiv : interval size (num : Int) = (k : Int) := by rw [interval_ofNat, hk]
    have hgt : interval size (num : Int) > 1 := by rw [hiv]; exact_mod_cast hk1
    have htoNat : (interval size (num : Int)).toNat = k := by rw [hiv]; simp
    have hrun : sampleGrids size A B (num : Int) = .ok (subsample k A, subsample k B) := by
      unfold sampleGrids
      rw [if_neg hne0, if_pos hgt, htoNat]
    refine ⟨hrun, ?_, ?_, ?_, ?_, ?_, ?_⟩
    · rw [subsample_length k (by omega), hA]
    · rw [subsample_length k (by omega), hB]
    · exact subsample_row_length k (by omega) size A hArow
    · exact subsample_row_length k (by omega) size B hBrow
    · exact fun i j => subsample_cell k (by omega) A i j
    · exact fun i j => subsample_cell k (by omega) B i j

/-- Witness for C2 (amended): a concrete 4×4 grid with `number = 2`
gives stride 2 and the expected 2×2 subsampled grids. -/
theorem sampleGrids_stride_consistent_witness :
    sampleGrids 4
      [[(0 : Int), 1, 2, 3], [4, 5, 6, 7], [8, 9, 10, 11], [12, 13, 14, 15]]
      [[(100 : Int), 101, 102, 103], [104, 105, 106, 107],
       [108, 109, 110, 111], [112, 113, 114, 115]] (2 : Int) =
      .ok ([[(0 : Int), 2], [8, 10]], [[(100 : Int), 102], [108, 110]]) := by
  have h := (sampleGrids_stride_consistent 4
    [[(0 : Int), 1, 2, 3], [4, 5, 6, 7], [8, 9, 10, 11], [12, 13, 14, 15]]
    [[(100 : Int), 101, 102, 103], [104, 105, 106, 107],
     [108, 109, 110, 111], [112, 113, 114, 115]] (2 : Int)
    (by decide) (by decide) (by decide) (by decide)).2 2 rfl (by decide) 2 rfl (by decide)
  rw [h.1]
  simp [subsample, everyNth]

/-- C10: the sampling-interval computation `interval = int(size / number)`
is total for nonzero `number`: a negative `number`, or one exceeding
`size`, yields `interval ≤ 1` and both grids at full resolution with no
error; `number = 0` raises `ZeroDivisionError`, which `main` does not
handle (only `PrintError` and `KeyboardInterrupt` are caught). -/
theorem sampleGrids_number_validation (size : Nat) (A B : List (List α)) (number : Int) :
    (number < 0 → interval size number ≤ 1 ∧ sampleGrids size A B number = .ok (A, B)) ∧
    ((size : Int) < number → interval size number ≤ 1 ∧
      sampleGrids size A B number = .ok (A, B)) ∧
    (number = 0 → sampleGrids size A B number = .error .zeroDivisionError ∧
      handledByMain .zeroDivisionError = false) := by
  refine ⟨?_, ?_, ?_⟩
  · intro hneg
    have hne0 : number ≠ 0 := by omega
    obtain ⟨n, rfl⟩ : ∃ n : Nat, number = Int.negSucc n := by
      cases number with
      | ofNat m =>
        have hmn : 0 ≤ Int.ofNat m := Int.ofNat_nonneg m
        omega
      | negSucc n => exact ⟨n, rfl⟩
    have hle : interval size (Int.negSucc n) ≤ 1 := by
      rw [interval_negSucc]
      have : (0 : Int) ≤ ((size / (n + 1) : Nat) : Int) := by positivity
      omega
    refine ⟨hle, ?_⟩
    unfold sampleGrids
    rw [if_neg hne0, if_neg (not_lt.mpr hle)]
  · intro hlt
    have hnn : 0 ≤ number := le_trans (by exact_mod_cast Nat.zero_le size) (le_of_lt hlt)
    obtain ⟨num, rfl⟩ : ∃ num : Nat, number = (num : Int) :=
      ⟨number.toNat, (Int.toNat_of_nonneg hnn).symm⟩
    have hne0 : ((num : Int)) ≠ 0 := by
      have : size < num := by exact_mod_cast hlt
      exact_mod_cast Nat.pos_iff_ne_zero.mp (by omega)
    have hle : interval size (num : Int) ≤ 1 := by
      rw [interval_ofNat, Nat.div_eq_of_lt (by exact_mod_cast hlt)]
      norm_num
    refine ⟨hle, ?_⟩
    unfold sampleGrids
    rw [if_neg hne0, if_neg (not_lt.mpr hle)]
  · intro h0
    subst h0
    exact ⟨rfl, rfl⟩

/-- Witness for C10: at `size = 512` the values `number = -3`,
`number = 600` and `number = 0` exercise the three branches. -/
theorem sampleGrids_number_validation_witness :
    sampleGrids 512 [[(1 : Int)]] [[(2 : Int)]] (-3) = .ok ([[1]], [[2]]) ∧
    sampleGrids 512 [[(1 : Int)]] [[(2 : Int)]] 600 = .ok ([[1]], [[2]]) ∧
    sampleGrids 512 [[(1 : Int)]] [[(2 : Int)]] 0 = .error .zeroDivisionError := by
  refine ⟨?_, ?_, ?_⟩
  · exact ((sampleGrids_number_validation 512 [[(1 : Int)]] [[(2 : Int)]] (-3)).1
      (by decide)).2
  · exact ((sampleGrids_number_validation 512 [[(1 : Int)]] [[(2 : Int)]] 600).2.1
      (by decide)).2
  · exact ((sampleGrids_number_validation 512 [[(1 : Int)]] [[(2 : Int)]] 0).2.2 rfl).1

/-- Python `"\x7b:02d\x7d".format(n)` for `n ≥ 0`: decimal digits,
zero-padded on the left to width 2 (wider numbers are not truncated). -/
def pad2 (n : Nat) : String :=
  if n < 10 then "0" ++ toString n else toString n

/-- One data line of the patch CSV (line 190 of clut2dtstyle.py):
`"A\x7b:02d\x7dB\x7b:02d\x7d;\x7b\x7d;..."` applied to the row index, the column index,
the three components of `A[i][j]` and the three components of `B[i][j]`.
`render` stands for Python's `str` on the array's numeric scalars. -/
def patchLine (render : α → String) (i j : Nat) (a b : α × α × α) : String :=
  "A" ++ pad2 i ++ "B" ++ pad2 j ++ ";" ++
    render a.1 ++ ";" ++ render a.2.1 ++ ";" ++ render a.2.2 ++ ";" ++
    render b.1 ++ ";" ++ render b.2.1 ++ ";" ++ render b.2.2

/-- The patch CSV as a list of lines (lines 182-190): four header lines,
then the doubly nested loop `for i in range(width): for j in range(width)`
emitting one patch line per cell, row index outer. -/
def csvLines (render : α → String) (title name : String)
    (A B : Nat → Nat → α × α × α) (width : Nat) : List String :=
  ["name;" ++ title,
   "description;fitted from Hald CLUT \"" ++ name ++ "\" using clut2dstyle",
   "num_gray;0",
   "patch;L_source;a_source;b_source;L_reference;a_reference;b_reference"] ++
  (List.range width).flatMap (fun i =>
    (List.range width).map (fun j => patchLine render i j (A i j) (B i j)))

lemma flatMap_range_length (w n : Nat) (f : Nat → List β)
    (hlen : ∀ i, (f i).length = w) :
    ((List.range n).flatMap f).length = n * w := by
  induction n with
  | zero => simp
  | succ n ih =>
    rw [List.range_succ, List.flatMap_append]
    simp [ih, hlen, Nat.succ_mul]

lemma flatMap_range_getElem? (w n : Nat) (f : Nat → List β)
    (hlen : ∀ i, (f i).length = w) (i j : Nat) (hi : i < n) (hj : j < w) :
    ((List.range n).flatMap f)[i * w + j]? = (f i)[j]? := by
  induction n with
  | zero => omega
  | succ n ih =>
    rw [List.range_succ, List.flatMap_append, List.getElem?_append,
      flatMap_range_length w n f hlen]
    rcases Nat.lt_succ_iff_lt_or_eq.mp hi with hlt | rfl
    · have hidx : i * w + j < n * w := by
        calc i * w + j < i * w + w := by omega
          _ = (i + 1) * w := (Nat.succ_mul i w).symm
          _ ≤ n * w := Nat.mul_le_mul_right w hlt
      rw [if_pos hidx]
      exact ih hlt
    · have hidx : ¬ (i * w + j < i * w) := by omega
      rw [if_neg hidx]
      simp

/-- C3: after the four header lines, the patch CSV has exactly one data
line per `(row, col)` pair of a `width × width` grid pair, in row-major
order (row index outer), and the line at offset `row * width + col` is
the name `A⟨row⟩B⟨col⟩` (indices zero-padded to two digits) followed by
the three components of `A[row][col]` and then the three components of
`B[row][col]`, semicolon-separated in that order. -/
theorem csvLines_patch_lines (render : α → String) (title name : String)
    (A B : Nat → Nat → α × α × α) (width i j : Nat)
    (hi : i < width) (hj : j < width) :
    (csvLines render title name A B width).length = 4 + width * width ∧
    (csvLines render title name A B width)[4 + (i * width + j)]? =
      some ("A" ++ pad2 i ++ "B" ++ pad2 j ++ ";" ++
        render (A i j).1 ++ ";" ++ render (A i j).2.1 ++ ";" ++ render (A i j).2.2 ++ ";" ++
        render (B i j).1 ++ ";" ++ render (B i j).2.1 ++ ";" ++ render (B i j).2.2) := by
  have hlen : ∀ r, ((List.range width).map
      (fun c => patchLine render r c (A r c) (B r c))).length = width := by
    intro r
    simp
  constructor
  · unfold csvLines
    rw [List.length_append,
      flatMap_range_length width width _ (fun r => hlen r)]
    rfl
  · unfold csvLines
    have hidx : 4 + (i * width + j) = (i * width + j) + 4 := by omega
    rw [hidx]
    have hcons : ∀ (a b c d : String) (l : List String) (m : Nat),
        ([a, b, c, d] ++ l)[m + 4]? = l[m]? := by
      intro a b c d l m
      rw [List.getElem?_append]
      simp only [List.length_cons, List.length_nil]
      rw [if_neg (by omega)]
      rfl
    rw [hcons]
    rw [flatMap_range_getElem? width width _ (fun r => hlen r) i j hi hj]
    rw [List.getElem?_map, List.getElem?_range hj]
    rfl

/-- Witness for C3: a concrete 2×2 grid pair; the data line for cell
`(1, 0)` sits at offset `4 + 1*2 + 0` and carries the expected name and
six fields. -/
theorem csvLines_patch_lines_witness :
    (csvLines (fun v : Int => toString v) "t" "clut.png"
        (fun i j => ((i : Int), (j : Int), 0)) (fun i j => ((j : Int), (i : Int), 1))
        2).length = 4 + 2 * 2 ∧
    (csvLines (fun v : Int => toString v) "t" "clut.png"
        (fun i j => ((i : Int), (j : Int), 0)) (fun i j => ((j : Int), (i : Int), 1))
        2)[4 + (1 * 2 + 0)]? = some "A01B00;1;0;0;0;1;1" := by
  have h := csvLines_patch_lines (fun v : Int => toString v) "t" "clut.png"
    (fun i j => ((i : Int), (j : Int), 0)) (fun i j => ((j : Int), (i : Int), 1))
    2 1 0 (by decide) (by decide)
  exact ⟨h.1, by rw [h.2]; rfl⟩

/-- A `plugin` node of the style document.  `operation` and `num` model
the optional `operation` and `num` child elements (`Element.find`
returns `None` when the child is absent, so accessing `.text` on the
result raises `AttributeError`); `payload` stands for all the other
children, which the pruner never touches. -/
structure Plugin where
  operation : Option String
  num : Option String
  payload : String
deriving DecidableEq, Repr

/-- The allowed-operation list of line 204. -/
def allowedOperations : List String := ["colorchecker", "tonecurve"]

/-- Whether the pruner keeps a plugin: its operation text is present and
in the allowed list. -/
def keepPlugin (p : Plugin) : Bool :=
  match p.operation with
  | some op => decide (op ∈ allowedOperations)
  | none => false

/-- Embedding of the loop body over one style node's plugins
(lines 202-208).  `n` is the running `num` counter.  A missing
`operation` child raises `AttributeError` at
`plugin.find("operation").text`; a missing `num` child on a surviving
plugin raises `AttributeError` at the assignment
`plugin.find("num").text = str(num)`. -/
def prunePlugins : List Plugin → Nat → Except PyExc (List Plugin)
  | [], _ => .ok []
  | p :: ps, n =>
    match p.operation with
    | none => .error .attributeError
    | some op =>
      if op ∉ allowedOperations then
        prunePlugins ps n
      else
        match p.num with
        | none => .error .attributeError
        | some _ =>
          match prunePlugins ps (n + 1) with
          | .error e => .error e
          | .ok rest => .ok ({ p with num := some (toString n) } :: rest)

/-- One style node: counter starts at 0 (line 202). -/
def pruneStyle (ps : List Plugin) : Except PyExc (List Plugin) :=
  prunePlugins ps 0

/-- The whole document: every style node in order (line 201). -/
def pruneDoc : List (List Plugin) → Except PyExc (List (List Plugin))
  | [] => .ok []
  | s :: ss =>
    match pruneStyle s with
    | .error e => .error e
    | .ok s' =>
      match pruneDoc ss with
      | .error e => .error e
      | .ok ss' => .ok (s' :: ss')

/-- Rewrites the `num` fields of a list of plugins to `n, n+1, ...` in
order, leaving everything else unchanged. -/
def renumberFrom (n : Nat) : List Plugin → List Plugin
  | [] => []
  | p :: ps => { p with num := some (toString n) } :: renumberFrom (n + 1) ps

/-- Follows the spec's words for the style pruner: remove the plugins
whose operation is not in the allowed set, keep the survivors in their
original relative order, and rewrite their `num` fields to `0, 1, 2, ...`
in the order encountered after removal. -/
def pruneStyleSpec (ps : List Plugin) : List Plugin :=
  renumberFrom 0 (ps.filter keepPlugin)

lemma renumberFrom_getElem? (l : List Plugin) (n i : Nat) :
    (renumberFrom n l)[i]? =
      (l[i]?).map (fun p => { p with num := some (toString (n + i)) }) := by
  induction l generalizing n i with
  | nil => simp [renumberFrom]
  | cons p ps ih =>
    cases i with
    | zero => simp [renumberFrom]
    | succ m =>
      simp only [renumberFrom, List.getElem?_cons_succ]
      rw [ih (n + 1) m, show n + 1 + m = n + (m + 1) by omega]

lemma renumberFrom_mem (l : List Plugin) (n : Nat) :
    ∀ q ∈ renumberFrom n l, ∃ p ∈ l, q.operation = p.operation ∧ q.num ≠ none := by
  induction l generalizing n with
  | nil => simp [renumberFrom]
  | cons p ps ih =>
    intro q hq
    rw [renumberFrom] at hq
    rcases List.mem_cons.mp hq with rfl | hq
    · exact ⟨p, List.mem_cons_self p ps, rfl, by simp⟩
    · rcases ih (n + 1) q hq with ⟨r, hr, hop, hnum⟩
      exact ⟨r, List.mem_cons_of_mem p hr, hop, hnum⟩

lemma renumberFrom_idem (l : List Plugin) (n : Nat) :
    renumberFrom n (renumberFrom n l) = renumberFrom n l := by
  induction l generalizing n with
  | nil => rfl
  | cons p ps ih => simp [renumberFrom, ih (n + 1)]

lemma keepPlugin_renumber (p : Plugin) (s : String) :
    keepPlugin { p with num := some s } = keepPlugin p := rfl

lemma prunePlugins_cons_none (p : Plugin) (ps : List Plugin) (n : Nat)
    (hop : p.operation = none) :
    prunePlugins (p :: ps) n = .error .attributeError := by
  rw [prunePlugins, hop]

lemma prunePlugins_cons_skip (p : Plugin) (ps : List Plugin) (n : Nat) (op : String)
    (hop : p.operation = some op) (hmem : op ∉ allowedOperations) :
    prunePlugins (p :: ps) n = prunePlugins ps n := by
  rw [prunePlugins, hop]
  exact if_pos hmem

lemma prunePlugins_cons_keep_noNum (p : Plugin) (ps : List Plugin) (n : Nat) (op : String)
    (hop : p.operation = some op) (hmem : op ∈ allowedOperations)
    (hnum : p.num = none) :
    prunePlugins (p :: ps) n = .error .attributeError := by
  rw [prunePlugins, hop]
  simp only [hnum]
  rw [if_neg (not_not_intro hmem)]

lemma prunePlugins_cons_keep (p : Plugin) (ps : List Plugin) (n : Nat) (op nm : String)
    (hop : p.operation = some op) (hmem : op ∈ allowedOperations)
    (hnum : p.num = some nm) :
    prunePlugins (p :: ps) n =
      match prunePlugins ps (n + 1) with
      | .error e => .error e
      | .ok rest => .ok ({ p with num := some (toString n) } :: rest) := by
  rw [prunePlugins, hop]
  simp only [hnum]
  rw [if_neg (not_not_intro hmem)]

lemma prunePlugins_ok_of_wf (ps : List Plugin) (n : Nat)
    (h : ∀ p ∈ ps, p.operation ≠ none ∧ p.num ≠ none) :
    prunePlugins ps n = .ok (renumberFrom n (ps.filter keepPlugin)) := by
  induction ps generalizing n with
  | nil => rfl
  | cons p ps ih =>
    obtain ⟨hop, hnum⟩ := h p (List.mem_cons_self p ps)
    obtain ⟨op, hop'⟩ := Option.ne_none_iff_exists'.mp hop
    obtain ⟨nm, hnum'⟩ := Option.ne_none_iff_exists'.mp hnum
    have htail : ∀ q ∈ ps, q.operation ≠ none ∧ q.num ≠ none :=
      fun q hq => h q (List.mem_cons_of_mem p hq)
    by_cases hmem : op ∈ allowedOperations
    · have hkeep : keepPlugin p = true := by simp [keepPlugin, hop', hmem]
      rw [prunePlugins_cons_keep p ps n op nm hop' hmem hnum', ih (n + 1) htail]
      simp [List.filter_cons, hkeep, renumberFrom]
    · have hkeep : keepPlugin p = false := by simp [keepPlugin, hop', hmem]
      rw [prunePlugins_cons_skip p ps n op hop' hmem, ih n htail]
      simp [List.filter_cons, hkeep]

lemma prunePlugins_error_attr (ps : List Plugin) (n : Nat) (e : PyExc)
    (h : prunePlugins ps n = .error e) : e = .attributeError := by
  induction ps generalizing n e with
  | nil => simp [prunePlugins] at h
  | cons p ps ih =>
    cases hop : p.operation with
    | none =>
      rw [prunePlugins_cons_none p ps n hop] at h
      exact ((Except.error.injEq _ _).mp h).symm
    | some op =>
      by_cases hmem : op ∈ allowedOperations
      · cases hnum : p.num with
        | none =>
          rw [prunePlugins_cons_keep_noNum p ps n op hop hmem hnum] at h
          exact ((Except.error.injEq _ _).mp h).symm
        | some nm =>
          rw [prunePlugins_cons_keep p ps n op nm hop hmem hnum] at h
          cases htail : prunePlugins ps (n + 1) with
          | error e' =>
            rw [htail] at h
            simp only [Except.error.injEq] at h
            exact h ▸ ih (n + 1) e' htail
          | ok rest =>
            rw [htail] at h
            simp at h
      · rw [prunePlugins_cons_skip p ps n op hop hmem] at h
        exact ih n e h

lemma prunePlugins_ok_sound (ps : List Plugin) (n : Nat) (qs : List Plugin)
    (h : prunePlugins ps n = .ok qs) :
    (∀ p ∈ ps, p.operation ≠ none ∧ (keepPlugin p = true → p.num ≠ none)) ∧
    qs = renumberFrom n (ps.filter keepPlugin) := by
  induction ps generalizing n qs with
  | nil =>
    rw [prunePlugins] at h
    simp only [Except.ok.injEq] at h
    exact ⟨by simp, by simp [renumberFrom, h.symm]⟩
  | cons p ps ih =>
    cases hop : p.operation with
    | none =>
      rw [prunePlugins_cons_none p ps n hop] at h
      simp at h
    | some op =>
      by_cases hmem : op ∈ allowedOperations
      · have hkeep : keepPlugin p = true := by simp [keepPlugin, hop, hmem]
        cases hnum : p.num with
        | none =>
          rw [prunePlugins_cons_keep_noNum p ps n op hop hmem hnum] at h
          simp at h
        | some nm =>
          rw [prunePlugins_cons_keep p ps n op nm hop hmem hnum] at h
          cases htail : prunePlugins ps (n + 1) with
          | error e' => rw [htail] at h; simp at h
          | ok rest =>
            rw [htail] at h
            simp only [Except.ok.injEq] at h
            obtain ⟨hwf, hshape⟩ := ih (n + 1) rest htail
            constructor
            · intro q hq
              rcases List.mem_cons.mp hq with rfl | hq
              · exact ⟨by simp [hop], fun _ => by simp [hnum]⟩
              · exact hwf q hq
            · rw [← h, hshape]
              simp [List.filter_cons, hkeep, renumberFrom]
      · have hkeep : keepPlugin p = false := by simp [keepPlugin, hop, hmem]
        rw [prunePlugins_cons_skip p ps n op hop hmem] at h
        obtain ⟨hwf, hshape⟩ := ih n qs h
        constructor
        · intro q hq
          rcases List.mem_cons.mp hq with rfl | hq
          · exact ⟨by simp [hop], fun hk => absurd hk (by simp [hkeep])⟩
          · exact hwf q hq
        · rw [hshape]
          simp [List.filter_cons, hkeep]

lemma pruneDoc_ok_of_wf (doc : List (List Plugin))
    (hwf : ∀ s ∈ doc, ∀ p ∈ s, p.operation ≠ none ∧ p.num ≠ none) :
    pruneDoc doc = .ok (doc.map pruneStyleSpec) := by
  induction doc with
  | nil => rfl
  | cons s ss ih =>
    rw [pruneDoc,
      show pruneStyle s = .ok (pruneStyleSpec s) from
        prunePlugins_ok_of_wf s 0 (hwf s (List.mem_cons_self s ss)),
      ih (fun t ht => hwf t (List.mem_cons_of_mem s ht))]
    rfl

lemma pruneDoc_error_attr (doc : List (List Plugin)) (e : PyExc)
    (h : pruneDoc doc = .error e) : e = .attributeError := by
  induction doc generalizing e with
  | nil => simp [pruneDoc] at h
  | cons s ss ih =>
    rw [pruneDoc] at h
    cases hs : pruneStyle s with
    | error e' =>
      rw [hs] at h
      simp only [Except.error.injEq] at h
      exact h ▸ prunePlugins_error_attr s 0 e' hs
    | ok s' =>
      rw [hs] at h
      cases hss : pruneDoc ss with
      | error e' =>
        rw [hss] at h
        simp only [Except.error.injEq] at h
        exact h ▸ ih e' hss
      | ok ss' =>
        rw [hss] at h
        simp at h

lemma pruneDoc_ok_sound (doc : List (List Plugin)) (d' : List (List Plugin))
    (h : pruneDoc doc = .ok d') :
    ∀ s ∈ doc, ∃ qs, pruneStyle s = .ok qs := by
  induction doc generalizing d' with
  | nil => simp
  | cons s ss ih =>
    rw [pruneDoc] at h
    cases hs : pruneStyle s with
    | error e =>
      rw [hs] at h
      simp at h
    | ok s' =>
      rw [hs] at h
      cases hss : pruneDoc ss with
      | error e =>
        rw [hss] at h
        simp at h
      | ok ss' =>
        intro t ht
        rcases List.mem_cons.mp ht with rfl | ht
        · exact ⟨s', hs⟩
        · exact ih ss' hss t ht

lemma pruneStyle_idem (ps qs : List Plugin) (h : pruneStyle ps = .ok qs) :
    pruneStyle qs = .ok qs := by
  obtain ⟨hwf, rfl⟩ := prunePlugins_ok_sound ps 0 qs h
  have hkeepl : ∀ p ∈ ps.filter keepPlugin, keepPlugin p = true :=
    fun p hp => (List.mem_filter.mp hp).2
  have hwfq : ∀ q ∈ renumberFrom 0 (ps.filter keepPlugin),
      q.operation ≠ none ∧ q.num ≠ none := by
    intro q hq
    obtain ⟨p, hp, hqop, hqnum⟩ := renumberFrom_mem (ps.filter keepPlugin) 0 q hq
    have hkp := hkeepl p hp
    refine ⟨?_, hqnum⟩
    intro hnone
    rw [hqop] at hnone
    simp [keepPlugin, hnone] at hkp
  rw [pruneStyle, prunePlugins_ok_of_wf (renumberFrom 0 (ps.filter keepPlugin)) 0 hwfq]
  have hfilter : (renumberFrom 0 (ps.filter keepPlugin)).filter keepPlugin =
      renumberFrom 0 (ps.filter keepPlugin) := by
    apply List.filter_eq_self.mpr
    intro q hq
    obtain ⟨p, hp, hqop, -⟩ := renumberFrom_mem (ps.filter keepPlugin) 0 q hq
    have hqk : keepPlugin q = keepPlugin p := by
      simp only [keepPlugin, hqop]
    rw [hqk]
    exact hkeepl p hp
  rw [hfilter, renumberFrom_idem]

/-- C4: on any well-formed style document (every plugin node has both an
operation and a num field), the pruner succeeds and returns, per style
node, the spec-side result `pruneStyleSpec`: the plugins whose operation
is outside the allowed set are exactly the ones removed, survivors keep
their original relative order with operation and payload untouched
(pointwise equal to the plain filter of the original list), and their
num fields read 0, 1, 2, ... in the order encountered. -/
theorem pruneDoc_correct (doc : List (List Plugin))
    (hwf : ∀ s ∈ doc, ∀ p ∈ s, p.operation ≠ none ∧ p.num ≠ none) :
    pruneDoc doc = .ok (doc.map pruneStyleSpec) ∧
    (∀ s ∈ doc, ∀ i : Nat,
      ((pruneStyleSpec s)[i]?).map Plugin.operation =
        ((s.filter keepPlugin)[i]?).map Plugin.operation ∧
      ((pruneStyleSpec s)[i]?).map Plugin.payload =
        ((s.filter keepPlugin)[i]?).map Plugin.payload ∧
      (∀ q, (pruneStyleSpec s)[i]? = some q → q.num = some (toString i))) := by
  refine ⟨pruneDoc_ok_of_wf doc hwf, ?_⟩
  intro s hs i
  unfold pruneStyleSpec
  rw [renumberFrom_getElem?]
  refine ⟨?_, ?_, ?_⟩
  · cases (s.filter keepPlugin)[i]? <;> rfl
  · cases (s.filter keepPlugin)[i]? <;> rfl
  · intro q hq
    cases hcell : (s.filter keepPlugin)[i]? with
    | none => rw [hcell] at hq; simp at hq
    | some p =>
      rw [hcell] at hq
      simp only [Option.map_some'] at hq
      rw [← Option.some.inj hq]
      simp

/-- Witness for C4: the spec's own example: operations
[colorchecker, foo, tonecurve, bar] prune to
[colorchecker (num 0), tonecurve (num 1)]. -/
theorem pruneDoc_correct_witness :
    pruneDoc [[⟨some "colorchecker", some "5", "a"⟩, ⟨some "foo", some "6", "b"⟩,
               ⟨some "tonecurve", some "7", "c"⟩, ⟨some "bar", some "8", "d"⟩]] =
      .ok [[⟨some "colorchecker", some "0", "a"⟩, ⟨some "tonecurve", some "1", "c"⟩]] := by
  have h := (pruneDoc_correct
    [[⟨some "colorchecker", some "5", "a"⟩, ⟨some "foo", some "6", "b"⟩,
      ⟨some "tonecurve", some "7", "c"⟩, ⟨some "bar", some "8", "d"⟩]]
    (by decide)).1
  rw [h]
  rfl

/-- C5: the pruner is idempotent: whenever pruning a style document
succeeds, pruning the result succeeds and returns it unchanged (so it is
a no-op on an already-pruned document). -/
theorem pruneDoc_idempotent (doc doc' : List (List Plugin))
    (h : pruneDoc doc = .ok doc') : pruneDoc doc' = .ok doc' := by
  induction doc generalizing doc' with
  | nil =>
    rw [pruneDoc] at h
    simp only [Except.ok.injEq] at h
    rw [← h]
    rfl
  | cons s ss ih =>
    rw [pruneDoc] at h
    cases hs : pruneStyle s with
    | error e =>
      rw [hs] at h
      simp at h
    | ok s' =>
      rw [hs] at h
      cases hss : pruneDoc ss with
      | error e =>
        rw [hss] at h
        simp at h
      | ok ss' =>
        rw [hss] at h
        simp only [Except.ok.injEq] at h
        rw [← h, pruneDoc, pruneStyle_idem s s' hs, ih ss' hss]

/-- Witness for C5: pruning a one-plugin colorchecker style renumbers it
to 0; pruning that result returns it unchanged. -/
theorem pruneDoc_idempotent_witness :
    pruneDoc [[⟨some "colorchecker", some "0", "p"⟩]] =
      .ok [[⟨some "colorchecker", some "0", "p"⟩]] :=
  pruneDoc_idempotent [[⟨some "colorchecker", some "9", "p"⟩]]
    [[⟨some "colorchecker", some "0", "p"⟩]] rfl

/-- C6 counterexample: the claim says every document containing a plugin
that lacks a num field fails; but a plugin with a disallowed operation
("foo") and no num field is removed without its num ever being read, so
the pruner succeeds. (The code also has no MalformedStyleError at all:
the only failure the loop can raise is AttributeError.) -/
theorem pruneDoc_malformed_counterexample :
    (Plugin.mk (some "foo") none "x").num = none ∧
    pruneDoc [[Plugin.mk (some "foo") none "x"]] = .ok [[]] :=
  ⟨rfl, rfl⟩

/-- C6 (amended): a style document containing a plugin that lacks an
operation field, or a plugin with an allowed operation that lacks a num
field, makes the pruner fail with AttributeError — an unhandled builtin
exception, not a handled domain error (the code defines no
MalformedStyleError); a removed plugin lacking only its num field causes
no failure. -/
theorem pruneDoc_malformed (doc : List (List Plugin))
    (h : ∃ s ∈ doc, ∃ p ∈ s,
      p.operation = none ∨ (keepPlugin p = true ∧ p.num = none)) :
    pruneDoc doc = .error .attributeError ∧
    handledByMain .attributeError = false := by
  refine ⟨?_, rfl⟩
  obtain ⟨s, hs, p, hp, hbad⟩ := h
  cases hd : pruneDoc doc with
  | ok d' =>
    exfalso
    obtain ⟨qs, hqs⟩ := pruneDoc_ok_sound doc d' hd s hs
    obtain ⟨hwf, -⟩ := prunePlugins_ok_sound s 0 qs hqs
    obtain ⟨hop, hnum⟩ := hwf p hp
    rcases hbad with hb | ⟨hk, hb⟩
    · exact hop hb
    · exact hnum hk hb
  | error e =>
    rw [pruneDoc_error_attr doc e hd]

/-- Witness for C6 (amended): a document whose only plugin lacks its
operation field fails with AttributeError. -/
theorem pruneDoc_malformed_witness :
    pruneDoc [[Plugin.mk none (some "0") "q"]] = .error .attributeError ∧
    handledByMain .attributeError = false :=
  pruneDoc_malformed [[Plugin.mk none (some "0") "q"]]
    ⟨[Plugin.mk none (some "0") "q"], by decide, Plugin.mk none (some "0") "q",
      by decide, Or.inl rfl⟩

/-- Embedding of the fit invocation and subsequent parse (lines 192-200).
`subprocess.run(["darktable-chart", ...])` is called without
`check=True`, so the fitting tool's exit status is returned and
discarded (the parameter `chartExitCode` is never inspected);
`et.parse(output)` then raises `FileNotFoundError` when the output file
does not exist, and otherwise yields the parsed document. -/
def runChartAndParse (chartExitCode : Nat)
    (outputFile : Option (List (List Plugin))) :
    Except PyExc (List (List Plugin)) :=
  match outputFile with
  | none => .error .fileNotFoundError
  | some doc => .ok doc

/-- C7 counterexample: a non-zero exit status of the fitting tool with an
existing output file is not reported as any error at all — the pipeline
proceeds with the parsed document, so no ToolInvocationError (no
`PrintError`) is raised. -/
theorem runChartAndParse_counterexample :
    (1 : Nat) ≠ 0 ∧ runChartAndParse 1 (some [[]]) = .ok [[]] :=
  ⟨one_ne_zero, rfl⟩

/-- C7 (amended): the exit status of the fitting tool is ignored
entirely (no `check=True`); when the expected output style file is
absent the subsequent parse fails with `FileNotFoundError`, an unhandled
builtin exception rather than a handled domain error. -/
theorem runChartAndParse_behavior (code : Nat) (doc : List (List Plugin)) :
    runChartAndParse code (some doc) = .ok doc ∧
    runChartAndParse code none = .error .fileNotFoundError ∧
    handledByMain .fileNotFoundError = false :=
  ⟨rfl, rfl, rfl⟩

/-- A file-system event of the run: `atexit.register(remove, name)`,
writing a file, or reading a file. -/
inductive FileEvent where
  | registerCleanup (name : String)
  | create (name : String)
  | use (name : String)
deriving DecidableEq, Repr

/-- The temp-file bookkeeping state: a fresh-name counter (standing in
for `tempfile._get_candidate_names`), the list of names whose removal
`atexit` will run at process exit, and the trace of events so far. -/
structure TmpState where
  nextId : Nat
  registry : List String
  events : List FileEvent
deriving Repr

def initState : TmpState := ⟨0, [], []⟩

/-- Embedding of `make_temp` (lines 99-103): a fresh name is generated
and `atexit.register(remove, name)` is called before the name is
returned — so before the file is created, let alone used. -/
def make_temp (ext : String) (s : TmpState) : String × TmpState :=
  ("tmp" ++ toString s.nextId ++ ext,
   ⟨s.nextId + 1,
    s.registry ++ ["tmp" ++ toString s.nextId ++ ext],
    s.events ++ [.registerCleanup ("tmp" ++ toString s.nextId ++ ext)]⟩)

def createFile (n : String) (s : TmpState) : TmpState :=
  { s with events := s.events ++ [.create n] }

def useFile (n : String) (s : TmpState) : TmpState :=
  { s with events := s.events ++ [.use n] }

/-- Module initialisation (lines 106-109): the sidecar temp file is
named and registered, then written. -/
def moduleInitTrace (s : TmpState) : String × TmpState :=
  let r := make_temp ".xmp" s
  (r.1, createFile r.1 r.2)

/-- File behaviour of `lab_array` (lines 133-146): a `.pfm` temp name,
`darktable-cli` reads the image and the sidecar and writes the pfm,
then the pfm is read back. -/
def lab_arrayTrace (img xmp : String) (s : TmpState) : TmpState :=
  let r := make_temp ".pfm" s
  useFile r.1 (createFile r.1 (useFile xmp (useFile img r.2)))

/-- File behaviour of `hald_array` (lines 149-156): a `.png` temp name,
`convert` writes the neutral CLUT to it, then `lab_array` runs on it. -/
def hald_arrayTrace (xmp : String) (s : TmpState) : TmpState :=
  let r := make_temp ".png" s
  lab_arrayTrace r.1 xmp (createFile r.1 r.2)

/-- File behaviour of `clut_to_dtstyle` (lines 159-210): `identify`
reads the input, the two Lab arrays are extracted, the CSV temp file is
named, written and handed to `darktable-chart`. -/
def clut_to_dtstyleTrace (input xmp : String) (s : TmpState) : TmpState :=
  let s1 := useFile input s
  let s2 := hald_arrayTrace xmp s1
  let s3 := lab_arrayTrace input xmp s2
  let r := make_temp ".csv" s3
  useFile r.1 (createFile r.1 r.2)

/-- The whole process: module import, then the pipeline on an input
image (the input is the one file in the trace the program did not
create). -/
def fullRun : TmpState :=
  let r := moduleInitTrace initState
  clut_to_dtstyleTrace "input.png" r.1 r.2

def createdNames (es : List FileEvent) : List String :=
  es.filterMap (fun e => match e with | .create n => some n | _ => none)

def usedNames (es : List FileEvent) : List String :=
  es.filterMap (fun e => match e with | .use n => some n | _ => none)

def registeredNames (es : List FileEvent) : List String :=
  es.filterMap (fun e => match e with | .registerCleanup n => some n | _ => none)

/-- A trace prefix is cleanup-safe when every file created so far is
already registered for removal at exit, and every temp file (a name the
whole run registers) that has been used so far was registered before
that use. -/
def cleanupSafe (tempNames : List String) (es : List FileEvent) : Bool :=
  (createdNames es).all (fun n => decide (n ∈ registeredNames es)) &&
  (usedNames es).all
    (fun n => decide (n ∉ tempNames) || decide (n ∈ registeredNames es))

/-- C9: at every prefix of the run's file-event trace — that is, at
every point where a domain error or interrupt could abort the pipeline,
as well as at normal completion — every temporary file created so far
already has its removal registered as an exit action, every temporary
file is registered before it is first used, and the exit-action registry
at the end is exactly the set of registered names, so the `atexit`
handlers (which Python runs on normal exit, on unhandled exceptions and
on the handled `KeyboardInterrupt` path alike) remove every created
temporary file. -/
theorem temp_cleanup (k : Nat) (hk : k ≤ fullRun.events.length) :
    cleanupSafe (registeredNames fullRun.events) (fullRun.events.take k) = true ∧
    fullRun.registry = registeredNames fullRun.events := by
  refine ⟨?_, rfl⟩
  have hlen : fullRun.events.length = 18 := rfl
  rw [hlen] at hk
  interval_cases k <;> decide

/-- Witness for C9: the full trace (prefix of length 18) is
cleanup-safe. -/
theorem temp_cleanup_witness :
    cleanupSafe (registeredNames fullRun.events) (fullRun.events.take 18) = true ∧
    fullRun.registry = registeredNames fullRun.events :=
  temp_cleanup 18 (by decide)

end Clut2dtstyle
